import Mathlib

/-!
Shallow embedding of the Household Recovery & Well-Being Loss Engine of the
fiat_toolbox repository (src/fiat_toolbox/well_being/methods.py and
src/fiat_toolbox/well_being/household.py).

Modelling conventions:
- Python floats are modelled as exact real numbers (`ℝ`).
- A float NaN (produced by the non-positive-consumption guard in `utility` and
  propagated through subsequent arithmetic) is modelled as `none : Option ℝ`;
  an ordinary numeric value is `some x`.  All arithmetic on possibly-NaN
  values is done in the `Option` monad, which matches IEEE NaN propagation
  for the operations used here (sums, products with the never-zero factor
  `exp (-rho*t)`, and divisions).
- A raised Python exception is modelled as `Except.error msg`; a normal
  return is `Except.ok`.
- numpy arrays of time points are modelled as `List ℝ`; the library is used
  by the claims only through the single-recovery-rate path, so the value of a
  loss object's recovery rate is a single `ℝ` (the batched value is a list
  where it matters, e.g. the diagnostic sweep of `Household.opt_lambda`).
- Mutable state (the pandas tables stored on `Household`, and the
  process-wide `warnings` filter list) is modelled by explicit state passing
  / by returning the computed values.
-/

open Classical

namespace FiatToolbox

/-- Error message of `utility` for `eta <= 0` (methods.py line 35). -/
def etaErrMsg : String := "ValueError: Elasticity of marginal utility of consumption must >= 0."

/-- Error message of `utility` for `normalize=True` on a scalar (methods.py line 50). -/
def normErrMsg : String := "ValueError: Utility cannot be normalized for a single consumption value."

/-- Error message of `recovery_time` for a non-positive rate (methods.py line 87). -/
def rateErrMsg : String := "ValueError: Rate must be positive."

/-- Error message of `recovery_rate` for a non-positive time (methods.py line 126). -/
def timeErrMsg : String := "ValueError: Time must be positive."

/-- Error message for `rebuilt_per` outside `[0, 100)` (methods.py lines 89, 128). -/
def rebuiltErrMsg : String := "ValueError: rebuilt_per must be a percentage between 0 and 100 (exclusive)."

/-- The IndexError raised by `t_max = self.t[-1]` (methods.py line 523) on an empty grid. -/
def indexErrMsg : String := "IndexError: index -1 is out of bounds for axis 0 with size 0"

/-- Error message of `Loss.total` for a 1-point grid with the trapezoid method (methods.py line 526). -/
def singlePointMsg : String := "ValueError: t must have at least 2 points to calculate the integral."

/-- Error message of `Loss.total` for an unknown method string (methods.py line 545). -/
def badMethodMsg : String := "ValueError: method must be either trapezoid or quad."

/-- Error message of `opt_lambda` when `t_max` is missing for the quad method (methods.py line 405). -/
def tmaxReqMsg : String := "ValueError: t_max must be provided when using the quad method."

/-- Error message of `opt_lambda` when `times` is missing for the trapezoid method (methods.py line 408). -/
def timesReqMsg : String := "ValueError: times must be provided when using the trapezoid method."

/-- The TypeError Python raises when `Household.calc_loss` multiplies the unset
recovery rate `l = None` by a float inside `reconstruction_cost_t` (the
not-ready failure mode of household.py). -/
def notReadyMsg : String := "TypeError: unsupported operand type for NoneType and float"

/-- Error raised by `numpy.min` on an empty array (reached by
`Household.opt_lambda` when `no_steps = 0`). -/
def minEmptyMsg : String := "ValueError: zero-size array to reduction operation minimum which has no identity"

/-- Error raised by `numpy.max` on an empty array. -/
def maxEmptyMsg : String := "ValueError: zero-size array to reduction operation maximum which has no identity"

/-- The `"trapezoid"` integration-method selector string. -/
def trapezoidMethod : String := "trapezoid"

/-- The `"quad"` integration-method selector string. -/
def quadMethod : String := "quad"

/-- `utility(consumption, eta, normalize)` of methods.py for a scalar input:
CRRA utility.  Non-positive consumption is replaced by NaN (`none`) before the
formula is applied; `eta <= 0` raises; `eta == 1` uses the natural logarithm
and emits a `UserWarning` (the returned `Bool` records whether that warning
was emitted); `normalize=True` on a scalar raises (in the source that check
runs after `u` is computed; hoisting it before the branch is observationally
equivalent, since the same exception is raised either way).  The returned
value is `(utility value or NaN, warning emitted)`. -/
noncomputable def utility (consumption : ℝ) (eta : ℝ) (normalize : Bool := false) :
    Except String (Option ℝ × Bool) :=
  if eta ≤ 0 then .error etaErrMsg
  else if normalize then .error normErrMsg
  else if eta = 1 then
    .ok ((if consumption ≤ 0 then none else some consumption).map Real.log, true)
  else
    .ok ((if consumption ≤ 0 then none else some consumption).map
          (fun x => x ^ (1 - eta) / (1 - eta)), false)

/-- `utility` of methods.py applied elementwise to a numpy array of
consumptions (the default `normalize=False` path, which is the one every
caller in the repository uses).  Each non-positive element becomes NaN
(`none`); the `Bool` records whether the `eta == 1` warning was emitted. -/
noncomputable def utilityList (cs : List ℝ) (eta : ℝ) :
    Except String (List (Option ℝ) × Bool) :=
  if eta ≤ 0 then .error etaErrMsg
  else if eta = 1 then
    .ok (cs.map (fun x => if x ≤ 0 then none else some (Real.log x)), true)
  else
    .ok (cs.map (fun x => if x ≤ 0 then none else some (x ^ (1 - eta) / (1 - eta))), false)

/-- The value component of a `utility` result (`none` when it raised). -/
def utilityVal (e : Except String (Option ℝ × Bool)) : Option ℝ :=
  match e with
  | .ok p => p.1
  | .error _ => none

/-- The warning flag of a `utility` result. -/
def utilityWarned (e : Except String (Option ℝ × Bool)) : Bool :=
  match e with
  | .ok p => p.2
  | .error _ => false

/-- The value list of a `utilityList` result (`[]` when it raised). -/
def utilityListVals (e : Except String (List (Option ℝ) × Bool)) : List (Option ℝ) :=
  match e with
  | .ok p => p.1
  | .error _ => []

/-- `true` exactly when the computation did not raise. -/
def eIsOk {α : Type} (e : Except String α) : Bool :=
  match e with
  | .ok _ => true
  | .error _ => false

/-- `Except.ok`-projection as an `Option`. -/
def eToOption {α : Type} (e : Except String α) : Option α :=
  match e with
  | .ok a => some a
  | .error _ => none

/-- `recovery_time(rate, rebuilt_per)` of methods.py:
`T = ln(1/(1 - rebuilt_per/100)) / rate`, raising for `rate <= 0` or
`rebuilt_per` outside `[0, 100)` (the rate check comes first, as in the
source). -/
noncomputable def recovery_time (rate : ℝ) (rebuilt_per : ℝ := 95) : Except String ℝ :=
  if rate ≤ 0 then .error rateErrMsg
  else if ¬(0 ≤ rebuilt_per ∧ rebuilt_per < 100) then .error rebuiltErrMsg
  else .ok (Real.log (1 / (1 - rebuilt_per / 100)) / rate)

/-- `recovery_rate(time, rebuilt_per)` of methods.py:
`rate = ln(1/(1 - rebuilt_per/100)) / time`, raising for `time <= 0` or
`rebuilt_per` outside `[0, 100)`. -/
noncomputable def recovery_rate (time : ℝ) (rebuilt_per : ℝ := 95) : Except String ℝ :=
  if time ≤ 0 then .error timeErrMsg
  else if ¬(0 ≤ rebuilt_per ∧ rebuilt_per < 100) then .error rebuiltErrMsg
  else .ok (Real.log (1 / (1 - rebuilt_per / 100)) / time)

/-- `recovery_rate` of methods.py applied to a numpy array of times:
raises if any element is non-positive (`np.any(time <= 0)`), otherwise maps
the closed form over the array. -/
noncomputable def recovery_rateL (times : List ℝ) (rebuilt_per : ℝ) : Except String (List ℝ) :=
  if ∃ t ∈ times, t ≤ 0 then .error timeErrMsg
  else if ¬(0 ≤ rebuilt_per ∧ rebuilt_per < 100) then .error rebuiltErrMsg
  else .ok (times.map (fun t => Real.log (1 / (1 - rebuilt_per / 100)) / t))

/-- The round trip of C1: `recovery_rate(recovery_time(rate, p), p)`. -/
noncomputable def recoveryRoundTrip (rate p : ℝ) : Except String ℝ :=
  match recovery_time rate p with
  | .error e => .error e
  | .ok t => recovery_rate t p

/-- `reconstruction_cost_t(t, l, v, k_str) = l*v*k_str*exp(-l*t)` of methods.py. -/
noncomputable def reconstruction_cost_t (t l v k_str : ℝ) : ℝ :=
  l * v * k_str * Real.exp (-l * t)

/-- `income_loss_t(t, l, v, k_str, pi) = pi*v*k_str*exp(-l*t)` of methods.py. -/
noncomputable def income_loss_t (t l v k_str pi : ℝ) : ℝ :=
  pi * v * k_str * Real.exp (-l * t)

/-- `consumption_loss_t = income_loss_t + reconstruction_cost_t` of methods.py. -/
noncomputable def consumption_loss_t (t l v k_str pi : ℝ) : ℝ :=
  income_loss_t t l v k_str pi + reconstruction_cost_t t l v k_str

/-- `consumption_t = c0 - consumption_loss_t` of methods.py. -/
noncomputable def consumption_t (t l v k_str pi c0 : ℝ) : ℝ :=
  c0 - consumption_loss_t t l v k_str pi

/-- `utility_loss_t(t, l, v, k_str, pi, c0, eta) = utility(c0) - utility(c_t)`
of methods.py.  The subtraction propagates NaN of either side. -/
noncomputable def utility_loss_t (t l v k_str pi c0 eta : ℝ) : Except String (Option ℝ) :=
  match utility c0 eta with
  | .error e => .error e
  | .ok u0 =>
    match utility (consumption_t t l v k_str pi c0) eta with
    | .error e => .error e
    | .ok ut => .ok (Option.map₂ (fun a b => a - b) u0.1 ut.1)

/-- `wellbeing_loss(du, c_avg, eta) = du / c_avg^(-eta)` of methods.py
(NaN in, NaN out). -/
noncomputable def wellbeing_loss (du : Option ℝ) (c_avg eta : ℝ) : Option ℝ :=
  du.map (fun d => d / c_avg ^ (-eta))

/-- `equity_weight(c, c_avg, eta) = (c/c_avg)^(-eta)` of methods.py. -/
noncomputable def equity_weight (c c_avg eta : ℝ) : ℝ :=
  (c / c_avg) ^ (-eta)

/-- Exception-free elementwise traversal used to model vectorized numpy
evaluation of a fallible function over an array (the first exception
propagates, as in Python). -/
def exMapM {α β : Type} (f : α → Except String β) : List α → Except String (List β)
  | [] => .ok []
  | x :: xs =>
    match f x with
    | .error e => .error e
    | .ok y =>
      match exMapM f xs with
      | .error e => .error e
      | .ok ys => .ok (y :: ys)

/-- `np.trapz(f_t * exp(-rho*t), x=t)` over an explicit `(time, value)` list:
the trapezoidal rule with NaN propagation (any NaN value poisons the sum,
because `exp (-rho*t)` is never zero). -/
noncomputable def trapzDis (rho : ℝ) : List (ℝ × Option ℝ) → Option ℝ
  | [] => some 0
  | [_] => some 0
  | p1 :: p2 :: rest =>
    match p1.2, p2.2, trapzDis rho (p2 :: rest) with
    | some a, some b, some s =>
        some ((p2.1 - p1.1) * (a * Real.exp (-rho * p1.1) + b * Real.exp (-rho * p2.1)) / 2 + s)
    | _, _, _ => none

/-- The trapezoidal rule on an exception-free, NaN-free rate function
(the value `Loss.total` computes when nothing is undefined). -/
noncomputable def trapzR (rho : ℝ) (g : ℝ → ℝ) : List ℝ → ℝ
  | [] => 0
  | [_] => 0
  | t1 :: t2 :: rest =>
    (t2 - t1) * (g t1 * Real.exp (-rho * t1) + g t2 * Real.exp (-rho * t2)) / 2
      + trapzR rho g (t2 :: rest)

/-- The numeric value of a loss-rate evaluation, defaulting to 0 (only used
inside the quadrature model below). -/
def exceptValD (e : Except String (Option ℝ)) : ℝ :=
  match e with
  | .ok (some y) => y
  | _ => 0

/-- Modelled from the spec: `scipy.integrate.quad` (not part of this
repository) — adaptive numerical quadrature of `rate(t)*exp(-rho*t)` over
`[0, t_max]`, yielding an undefined (NaN) result when the integrand is
undefined somewhere on the interval. -/
noncomputable def quadModel (f : ℝ → Except String (Option ℝ)) (t_max rho : ℝ) : Option ℝ :=
  if ∀ t ∈ Set.Icc (0 : ℝ) t_max, ∃ y, f t = .ok (some y) then
    some (∫ t in (0 : ℝ)..t_max, exceptValD (f t) * Real.exp (-rho * t))
  else none

/-- `Loss.total(rho, method)` of methods.py for a single recovery rate, with
the rate function `f` already closed over the rate (as the `_fun` lambdas of
the `Loss` subclasses are).  `t_max = self.t[-1]` is evaluated first, so an
empty grid raises IndexError whatever the method; the trapezoid branch
requires at least 2 grid points; unknown methods raise ValueError. -/
noncomputable def Loss.total (times : List ℝ) (f : ℝ → Except String (Option ℝ))
    (rho : ℝ) (method : String) : Except String (Option ℝ) :=
  match times with
  | [] => .error indexErrMsg
  | t0 :: ts =>
    if method = "trapezoid" then
      if (t0 :: ts).length = 1 then .error singlePointMsg
      else
        match exMapM f (t0 :: ts) with
        | .error e => .error e
        | .ok vals => .ok (trapzDis rho ((t0 :: ts).zip vals))
    else if method = "quad" then
      .ok (quadModel f ((t0 :: ts).getLastD 0) rho)
    else .error badMethodMsg

/-- The entry `warnings.filterwarnings("ignore", category=IntegrationWarning)`
appends to the process-wide warnings filter (methods.py line 533). -/
def integrationWarningFilter : String := "ignore IntegrationWarning"

/-- `Loss.total` together with its effect on the process-wide `warnings`
filter list (explicit state passing for the global mutable state of the
`warnings` module).  The quad branch registers an ignore filter for
`IntegrationWarning` before integrating and never removes it; on an empty
grid the IndexError is raised before the branch, so the state is untouched;
no other branch touches the state. -/
noncomputable def Loss.totalWithWarnings (filters : List String) (times : List ℝ)
    (f : ℝ → Except String (Option ℝ)) (rho : ℝ) (method : String) :
    List String × Except String (Option ℝ) :=
  match times with
  | [] => (filters, Loss.total times f rho method)
  | _ :: _ =>
    ((if method = "trapezoid" then filters
      else if method = "quad" then integrationWarningFilter :: filters
      else filters),
     Loss.total times f rho method)

/-- The candidate points at which the modelled simplex search evaluates its
objective: an evenly spaced mesh of `[l_min, l_max]` whose first point is the
seed `l_min`. -/
noncomputable def nmCandidates (l_min l_max : ℝ) : List ℝ :=
  (List.range 101).map (fun i : ℕ => l_min + (l_max - l_min) * (i : ℝ) / 100)

/-- `fy` is a strict improvement over `fx` (a NaN objective value never
improves anything, matching the behaviour of the simplex comparisons on NaN;
a numeric value does improve on NaN). -/
def improves (fx fy : Option ℝ) : Prop :=
  match fx, fy with
  | some a, some b => b < a
  | none, some _ => True
  | _, _ => False

/-- The best candidate of a list of evaluated points, preferring earlier
points on ties (so the seed wins when nothing improves on it, e.g. when the
objective is NaN everywhere). -/
noncomputable def pickBest : (ℝ × Option ℝ) → List (ℝ × Option ℝ) → ℝ
  | c, [] => c.1
  | c, p :: rest => if improves c.2 p.2 then pickBest p rest else pickBest c rest

/-- Modelled from the spec: `scipy.optimize.minimize(fun, l_min,
bounds=[(l_min, l_max)], method="Nelder-Mead")` (not part of this
repository) — a bounded derivative-free simplex search seeded at `l_min`:
it evaluates the objective at finitely many points of `[l_min, l_max]`
(the seed first) and returns the best point found; objective exceptions
propagate. -/
noncomputable def minimizeNM (f : ℝ → Except String (Option ℝ)) (l_min l_max : ℝ) :
    Except String ℝ :=
  match exMapM (fun x =>
      match f x with
      | .error e => .error e
      | .ok v => .ok (x, v)) (nmCandidates l_min l_max) with
  | .error e => .error e
  | .ok [] => .ok l_min
  | .ok (c :: rest) => .ok (pickBest c rest)

/-- The objective of `opt_lambda` in methods.py:
`UtilityLoss(times, l, v, k_str, pi, c0, eta).total(rho=0, method)`
as a function of the time point, with the rate `l` closed over. -/
noncomputable def utilityLossFun (l v k_str pi c0 eta : ℝ) : ℝ → Except String (Option ℝ) :=
  fun t => utility_loss_t t l v k_str pi c0 eta

/-- `opt_lambda(v, k_str, c0, pi, eta, l_min, l_max, t_max, times, method)` of
methods.py: validates the time inputs required by the method, then minimizes
the total (rho = 0) utility loss over `[l_min, l_max]` with the bounded
simplex search seeded at `l_min`.  For the quad method the grid is replaced
by `[0, t_max]`. -/
noncomputable def opt_lambda (v k_str c0 pi eta l_min l_max : ℝ)
    (t_max : Option ℝ) (times : Option (List ℝ)) (method : String) : Except String ℝ :=
  if method = "quad" then
    match t_max with
    | none => .error tmaxReqMsg
    | some tm =>
      minimizeNM (fun l => Loss.total [0, tm] (utilityLossFun l v k_str pi c0 eta) 0 method)
        l_min l_max
  else if method = "trapezoid" then
    match times with
    | none => .error timesReqMsg
    | some ts =>
      minimizeNM (fun l => Loss.total ts (utilityLossFun l v k_str pi c0 eta) 0 method)
        l_min l_max
  else
    minimizeNM (fun l => Loss.total (times.getD []) (utilityLossFun l v k_str pi c0 eta) 0 method)
      l_min l_max

/-- Python `int(x)`: truncation toward zero. -/
noncomputable def pyInt (x : ℝ) : ℤ :=
  if x < 0 then ⌈x⌉ else ⌊x⌋

/-- `np.linspace(a, b, n)`: `n` evenly spaced points from `a` to `b`
inclusive. -/
noncomputable def linspace (a b : ℝ) (n : ℕ) : List ℝ :=
  (List.range n).map (fun i : ℕ => a + (b - a) * (i : ℝ) / ((n : ℝ) - 1))

/-- The re-derived time step of `Household.__init__`:
`self.dt = t_max / (int(t_max/dt) + 1)`. -/
noncomputable def householdDt (t_max dt : ℝ) : ℝ :=
  t_max / ((pyInt (t_max / dt) : ℝ) + 1)

/-- The number of grid points of `Household.__init__`:
`int(t_max/self.dt) + 1`. -/
noncomputable def householdNumPoints (t_max dt : ℝ) : ℕ :=
  (pyInt (t_max / householdDt t_max dt) + 1).toNat

/-- The time grid of `Household.__init__`:
`self.t = np.linspace(0, t_max, int(t_max/self.dt) + 1)`. -/
noncomputable def householdGrid (t_max dt : ℝ) : List ℝ :=
  linspace 0 t_max (householdNumPoints t_max dt)

/-- The state of a `Household` (household.py).  The `currency` field and the
stored pandas tables (`time_series`, `total_losses`, `l_opt`) are
presentation-only and are modelled by the values the methods return. -/
structure Household where
  v : ℝ
  k_str : ℝ
  c0 : ℝ
  c_avg : ℝ
  pi : ℝ
  eta : ℝ
  rho : ℝ
  t_max : ℝ
  dt : ℝ
  t : List ℝ
  l : Option ℝ
  recovery_time : Option ℝ
deriving Inhabited

/-- `Household.__init__`: stores the parameters, re-derives the time step and
the grid, and computes the recovery time when a recovery rate is supplied
(raising if that rate is non-positive). -/
noncomputable def Household.create (v k_str c0 c_avg : ℝ) (l : Option ℝ)
    (pi eta rho t_max dt : ℝ) : Except String Household :=
  match l with
  | none =>
    .ok ⟨v, k_str, c0, c_avg, pi, eta, rho, t_max,
         householdDt t_max dt, householdGrid t_max dt, none, none⟩
  | some l0 =>
    match FiatToolbox.recovery_time l0 95 with
    | .error e => .error e
    | .ok rt =>
      .ok ⟨v, k_str, c0, c_avg, pi, eta, rho, t_max,
           householdDt t_max dt, householdGrid t_max dt, some l0, some rt⟩

/-- The `LossType` enumeration of household.py. -/
inductive LossType
  | reconstruction
  | income
  | consumption
  | utility

/-- The `_fun` a `Household.calc_loss` dispatch constructs for each loss type
(the `Loss` subclass lambdas of methods.py, closed over the household's
parameters and a known recovery rate). -/
noncomputable def Household.lossFun (h : Household) (lt : LossType) (l0 : ℝ) :
    ℝ → Except String (Option ℝ) :=
  match lt with
  | .reconstruction => fun t => .ok (some (reconstruction_cost_t t l0 h.v h.k_str))
  | .income => fun t => .ok (some (income_loss_t t l0 h.v h.k_str h.pi))
  | .consumption => fun t => .ok (some (consumption_loss_t t l0 h.v h.k_str h.pi))
  | .utility => fun t => utility_loss_t t l0 h.v h.k_str h.pi h.c0 h.eta

/-- `Household.calc_loss(loss_type, method)`: builds the matching loss object
on the household's grid and returns its total with `rho = 0`.  When the
recovery rate was never set (`l is None`), the first arithmetic on it raises
a TypeError — the not-ready failure. -/
noncomputable def Household.calc_loss (h : Household) (lt : LossType) (method : String) :
    Except String (Option ℝ) :=
  match h.l with
  | none => .error notReadyMsg
  | some l0 => Loss.total h.t (h.lossFun lt l0) 0 method

/-- The labeled loss record `Household.get_losses` returns (the
`total_losses` pandas Series): the four kind totals, the wellbeing loss, the
asset loss and the equity-weighted loss.  NaN-valued entries are `none`. -/
structure LossRecord where
  reconstruction : Option ℝ
  income : Option ℝ
  consumption : Option ℝ
  utility : Option ℝ
  wellbeing : Option ℝ
  assetLoss : ℝ
  equityWeighted : ℝ
deriving Inhabited

/-- `Household.get_losses(method)`: computes all four kind totals (rho = 0),
then the rho-discounted utility-loss total, from which the wellbeing loss is
derived; the asset loss is `v*k_str` and the equity-weighted loss
`equity_weight(c0, c_avg, eta)*v*k_str`.  Fails like `calc_loss` when the
recovery rate is unset. -/
noncomputable def Household.get_losses (h : Household) (method : String) :
    Except String LossRecord :=
  match h.l with
  | none => .error notReadyMsg
  | some l0 =>
    match Loss.total h.t (h.lossFun .reconstruction l0) 0 method with
    | .error e => .error e
    | .ok recT =>
      match Loss.total h.t (h.lossFun .income l0) 0 method with
      | .error e => .error e
      | .ok incT =>
        match Loss.total h.t (h.lossFun .consumption l0) 0 method with
        | .error e => .error e
        | .ok conT =>
          match Loss.total h.t (h.lossFun .utility l0) 0 method with
          | .error e => .error e
          | .ok utiT =>
            match Loss.total h.t (h.lossFun .utility l0) h.rho method with
            | .error e => .error e
            | .ok du =>
              .ok ⟨recT, incT, conT, utiT,
                   wellbeing_loss du h.c_avg h.eta,
                   h.v * h.k_str,
                   equity_weight h.c0 h.c_avg h.eta * h.v * h.k_str⟩

/-- `numpy.min` over an array (raising on an empty one). -/
noncomputable def listMin : List ℝ → Except String ℝ
  | [] => .error minEmptyMsg
  | x :: xs => .ok (xs.foldl min x)

/-- `numpy.max` over an array (raising on an empty one). -/
noncomputable def listMax : List ℝ → Except String ℝ
  | [] => .error maxEmptyMsg
  | x :: xs => .ok (xs.foldl max x)

/-- `Household.opt_lambda(rec_time_max, rec_time_min, no_steps, method)` of
household.py: sweeps `no_steps` recovery times between `rec_time_min` and
`rec_time_max` (defaulting to the last grid point), converts them to recovery
rates, evaluates the four total losses on that diagnostic sweep (stored only
in the `l_opt` table for plotting; the values do not feed back into the
optimum), then calls the continuous optimizer `opt_lambda` over
`[lambdas.min(), lambdas.max()]` and stores the resulting rate and its
recovery time on the household.  Returns the updated household and the
optimal rate. -/
noncomputable def Household.opt_lambda (h : Household) (rec_time_max : Option ℝ)
    (rec_time_min : ℝ) (no_steps : ℕ) (method : String) :
    Except String (Household × ℝ) :=
  match recovery_rateL (linspace rec_time_min (rec_time_max.getD (h.t.getLastD 0)) no_steps) 95 with
  | .error e => .error e
  | .ok lambdas =>
    match exMapM (fun l0 =>
        Loss.total h.t (fun t => .ok (some (reconstruction_cost_t t l0 h.v h.k_str))) 0 method)
        lambdas with
    | .error e => .error e
    | .ok _sweepRec =>
      match exMapM (fun l0 =>
          Loss.total h.t (fun t => .ok (some (income_loss_t t l0 h.v h.k_str h.pi))) 0 method)
          lambdas with
      | .error e => .error e
      | .ok _sweepInc =>
        match exMapM (fun l0 =>
            Loss.total h.t (fun t => .ok (some (consumption_loss_t t l0 h.v h.k_str h.pi))) 0 method)
            lambdas with
        | .error e => .error e
        | .ok _sweepCon =>
          match exMapM (fun l0 =>
              Loss.total h.t (utilityLossFun l0 h.v h.k_str h.pi h.c0 h.eta) 0 method)
              lambdas with
          | .error e => .error e
          | .ok _sweepUti =>
            match listMin lambdas with
            | .error e => .error e
            | .ok lmin =>
              match listMax lambdas with
              | .error e => .error e
              | .ok lmax =>
                match FiatToolbox.opt_lambda h.v h.k_str h.c0 h.pi h.eta lmin lmax
                    (some h.t_max) (some h.t) method with
                | .error e => .error e
                | .ok lam =>
                  match FiatToolbox.recovery_time lam 95 with
                  | .error e => .error e
                  | .ok rt =>
                    .ok ({h with l := some lam, recovery_time := some rt}, lam)

/-- The household of the end-to-end scenario (claim C3):
`Household(v=0.4, k_str=100000, c0=2000, c_avg=1800, eta=1.5, pi=0.15,
rho=0.06, t_max=10)` with the default `dt = 1/52` and no recovery rate. -/
noncomputable def H0 : Household :=
  ⟨0.4, 100000, 2000, 1800, 0.15, 1.5, 0.06, 10,
   householdDt 10 (1 / 52), householdGrid 10 (1 / 52), none, none⟩

/-- `H0.opt_lambda()` with the source defaults
(`rec_time_max=None`, `rec_time_min=0.3`, `no_steps=1000`,
`method="trapezoid"`). -/
noncomputable def C3run : Except String (Household × ℝ) :=
  H0.opt_lambda none 0.3 1000 trapezoidMethod

/-- The optimal rate returned by the end-to-end run. -/
noncomputable def C3lam : ℝ :=
  ((eToOption C3run).map Prod.snd).getD 0

/-- The household after the end-to-end `opt_lambda`. -/
noncomputable def C3H1 : Household :=
  ((eToOption C3run).map Prod.fst).getD H0

/-- `get_losses()` of the optimized end-to-end household. -/
noncomputable def C3losses : Except String LossRecord :=
  C3H1.get_losses trapezoidMethod

/-- The resulting loss record of the end-to-end scenario. -/
noncomputable def C3record : LossRecord :=
  (eToOption C3losses).getD default

/-- The total discounted utility loss the claim C4 compares: grid `[0, 1]`,
`v = 1`, `k_str = 1`, `pi = 0`, `c0 = 2`, `eta = 2`, `rho = 0`, trapezoid. -/
noncomputable def C4total (l : ℝ) : Except String (Option ℝ) :=
  Loss.total [0, 1] (utilityLossFun l 1 1 0 2 2) 0 trapezoidMethod

/-- Strict comparison of two loss totals: both defined numbers, first less
than the second. -/
def exceptLtSome : Except String (Option ℝ) → Except String (Option ℝ) → Prop
  | .ok (some a), .ok (some b) => a < b
  | _, _ => False

/-- The returned value of a fallible real computation lies in `[lo, hi]`
(vacuously for an exception). -/
def resultWithin (e : Except String ℝ) (lo hi : ℝ) : Prop :=
  match e with
  | .ok x => lo ≤ x ∧ x ≤ hi
  | .error _ => True

end FiatToolbox

open FiatToolbox

/-- C1 (counterexample): at `rate = 1`, `rebuilt_per = 0` — an input the claim
allows — the round trip does not return the rate: `recovery_time` yields 0
there (`ln 1 = 0`) and `recovery_rate` rejects a non-positive time. -/
theorem roundtrip_p0 : recoveryRoundTrip 1 0 = Except.error timeErrMsg := by
  have h1 : recovery_time (1 : ℝ) 0 = Except.ok 0 := by
    rw [recovery_time, if_neg (by norm_num : ¬(1 : ℝ) ≤ 0),
        if_neg (not_not_intro (by norm_num : (0 : ℝ) ≤ 0 ∧ (0 : ℝ) < 100))]
    norm_num [Real.log_one]
  simp only [recoveryRoundTrip, h1]
  rw [recovery_rate, if_pos le_rfl]

/-- C1 (amended): for every `rate > 0` and every `rebuilt_per` with
`0 < rebuilt_per < 100`, `recovery_rate (recovery_time rate p) p` returns
exactly `rate` (exact inverses; the boundary `rebuilt_per = 0` of the original
claim must be excluded, see the counterexample). -/
theorem recoveryRoundTrip_exact_inverse (rate p : ℝ)
    (hrate : 0 < rate) (hp0 : 0 < p) (hp1 : p < 100) :
    recoveryRoundTrip rate p = Except.ok rate := by
  have hfrac : (0 : ℝ) < 1 - p / 100 := by linarith
  have hK : 1 < 1 / (1 - p / 100) := by
    rw [lt_div_iff₀ hfrac]
    linarith
  have hlog : 0 < Real.log (1 / (1 - p / 100)) := Real.log_pos hK
  have hT : 0 < Real.log (1 / (1 - p / 100)) / rate := div_pos hlog hrate
  have h1 : recovery_time rate p
      = Except.ok (Real.log (1 / (1 - p / 100)) / rate) := by
    rw [recovery_time, if_neg (not_le.mpr hrate),
        if_neg (not_not_intro ⟨le_of_lt hp0, hp1⟩)]
  simp only [recoveryRoundTrip, h1]
  rw [recovery_rate, if_neg (not_le.mpr hT),
      if_neg (not_not_intro ⟨le_of_lt hp0, hp1⟩)]
  congr 1
  rw [div_div_eq_mul_div, mul_comm, mul_div_assoc, div_self (ne_of_gt hlog), mul_one]

/-- Witness for C1: the round trip at `rate = 2`, `rebuilt_per = 95`. -/
theorem recoveryRoundTrip_exact_inverse_witness :
    (0 : ℝ) < 2 ∧ recoveryRoundTrip 2 95 = Except.ok 2 :=
  ⟨by norm_num,
   recoveryRoundTrip_exact_inverse 2 95 (by norm_num) (by norm_num) (by norm_num)⟩

theorem pyInt_of_nonneg (x : ℝ) (h : 0 ≤ x) : pyInt x = ⌊x⌋ := by
  rw [pyInt, if_neg (not_lt.mpr h)]

theorem linspace_length (a b : ℝ) (n : ℕ) : (linspace a b n).length = n := by
  rw [linspace, List.length_map, List.length_range]

theorem linspace_getD (a b : ℝ) (n i : ℕ) (h : i < n) :
    (linspace a b n).getD i 0 = a + (b - a) * i / ((n : ℝ) - 1) := by
  rw [linspace, List.getD_eq_getElem?_getD, List.getElem?_map, List.getElem?_range h]
  rfl

theorem householdNumPoints_eq (t_max dt : ℝ) (ht : 0 < t_max) (hdt : 0 < dt) :
    householdNumPoints t_max dt = (⌊t_max / dt⌋).toNat + 2 := by
  have hx : 0 < t_max / dt := div_pos ht hdt
  have hn : (0 : ℤ) ≤ ⌊t_max / dt⌋ := Int.floor_nonneg.mpr (le_of_lt hx)
  have hcast : (0 : ℝ) < (⌊t_max / dt⌋ : ℝ) + 1 := by
    have : (0 : ℝ) ≤ (⌊t_max / dt⌋ : ℝ) := by exact_mod_cast hn
    linarith
  have hdt1 : householdDt t_max dt = t_max / ((⌊t_max / dt⌋ : ℝ) + 1) := by
    rw [householdDt, pyInt_of_nonneg _ (le_of_lt hx)]
  have hy : t_max / householdDt t_max dt = (⌊t_max / dt⌋ : ℝ) + 1 := by
    rw [hdt1, div_div_eq_mul_div, mul_comm, mul_div_assoc, div_self (ne_of_gt ht), mul_one]
  have hy2 : t_max / householdDt t_max dt = ((⌊t_max / dt⌋ + 1 : ℤ) : ℝ) := by
    rw [hy]; push_cast; ring
  rw [householdNumPoints, hy2, pyInt_of_nonneg, Int.floor_intCast]
  · omega
  · rw [← hy2, hy]; linarith

theorem householdGrid_numPoints_default : householdNumPoints 10 (1 / 52) = 522 := by
  have h := householdNumPoints_eq 10 (1 / 52) (by norm_num) (by norm_num)
  rw [h, show ⌊(10 : ℝ) / (1 / 52)⌋ = 520 by
    rw [show (10 : ℝ) / (1 / 52) = ((520 : ℤ) : ℝ) by norm_num, Int.floor_intCast]]
  rfl

/-- C2 (counterexample): for the default construction parameters
`t_max = 10`, `dt = 1/52`, the stored grid has 522 points, while the claimed
length `floor(t_max/dt) + 1` is `520 + 1 = 521`. -/
theorem householdGrid_default_length :
    (householdGrid 10 (1 / 52)).length = 522 ∧ ⌊(10 : ℝ) / (1 / 52)⌋ = 520 := by
  constructor
  · rw [householdGrid, linspace_length, householdGrid_numPoints_default]
  · rw [show (10 : ℝ) / (1 / 52) = ((520 : ℤ) : ℝ) by norm_num, Int.floor_intCast]

/-- C2 (amended): for every `t_max > 0` and nominal step `dt > 0`, the stored
time grid is the evenly spaced sequence `i * t_max / (N - 1)` for
`i = 0, ..., N-1`, running from 0 to `t_max` inclusive — but its length `N`
is `floor(t_max/dt) + 2`, not `floor(t_max/dt) + 1`: the code divides
`t_max` into `int(t_max/dt) + 1` whole steps, which takes
`int(t_max/dt) + 2` grid points. -/
theorem householdGrid_evenly_spaced (t_max dt : ℝ) (ht : 0 < t_max) (hdt : 0 < dt) :
    (householdGrid t_max dt).length = (⌊t_max / dt⌋).toNat + 2 ∧
    (∀ i : ℕ, i < (⌊t_max / dt⌋).toNat + 2 →
      (householdGrid t_max dt).getD i 0
        = t_max * (i : ℝ) / (((⌊t_max / dt⌋).toNat + 2 : ℝ) - 1)) ∧
    (householdGrid t_max dt).getD 0 0 = 0 ∧
    (householdGrid t_max dt).getD ((⌊t_max / dt⌋).toNat + 1) 0 = t_max := by
  have hN := householdNumPoints_eq t_max dt ht hdt
  set N : ℕ := (⌊t_max / dt⌋).toNat + 2 with hNdef
  have hgrid : householdGrid t_max dt = linspace 0 t_max N := by
    rw [householdGrid, hN]
  have hlen : (householdGrid t_max dt).length = N := by
    rw [hgrid, linspace_length]
  have hval : ∀ i : ℕ, i < N →
      (householdGrid t_max dt).getD i 0 = t_max * (i : ℝ) / ((N : ℝ) - 1) := by
    intro i hi
    rw [hgrid, linspace_getD 0 t_max N i hi]
    ring
  have hcastN : ((N : ℕ) : ℝ) = ((⌊t_max / dt⌋).toNat : ℝ) + 2 := by
    rw [hNdef]; push_cast; ring
  refine ⟨hlen, fun i hi => by rw [hval i hi, hcastN], ?_, ?_⟩
  · rw [hval 0 (by omega)]
    simp
  · have hlast : (⌊t_max / dt⌋).toNat + 1 < N := by omega
    rw [hval _ hlast]
    have hcast : (((⌊t_max / dt⌋).toNat + 1 : ℕ) : ℝ) = (N : ℝ) - 1 := by
      rw [hNdef]; push_cast; ring
    rw [hcast, mul_div_assoc, div_self, mul_one]
    have : (2 : ℝ) ≤ (N : ℝ) := by
      rw [hNdef]; push_cast; norm_num
    linarith

/-- Witness for C2: the amended grid description at `t_max = 10`,
`dt = 1/52`. -/
theorem householdGrid_evenly_spaced_witness :
    (0 : ℝ) < 10 ∧ (0 : ℝ) < 1 / 52 ∧
    (householdGrid 10 (1 / 52)).length = (⌊(10 : ℝ) / (1 / 52)⌋).toNat + 2 :=
  ⟨by norm_num, by norm_num,
   (householdGrid_evenly_spaced 10 (1 / 52) (by norm_num) (by norm_num)).1⟩

/-- C6 (confirmed): on a Household whose recovery rate was never set
(`l = None`), both `calc_loss` and `get_losses` fail (the unset rate hits the
first arithmetic as a TypeError — household.py has no explicit guard, but the
call never returns a result). -/
theorem calcLoss_requires_rate (h : Household) (hl : h.l = none)
    (lt : LossType) (m : String) :
    h.calc_loss lt m = Except.error notReadyMsg ∧
    h.get_losses m = Except.error notReadyMsg := by
  constructor
  · simp only [Household.calc_loss, hl]
  · simp only [Household.get_losses, hl]

/-- Witness for C6: the end-to-end household before optimization has no rate,
and both entry points fail on it. -/
theorem calcLoss_requires_rate_witness :
    H0.calc_loss LossType.utility trapezoidMethod = Except.error notReadyMsg ∧
    H0.get_losses trapezoidMethod = Except.error notReadyMsg :=
  calcLoss_requires_rate H0 rfl LossType.utility trapezoidMethod

/-- C10 (confirmed): a `Loss.total` call with `method="quad"` on a non-empty
grid prepends an ignore filter for `IntegrationWarning` to the process-wide
warnings filter list and never removes it (the new state is different from
every prior state and is what all later computations in the process see),
while the trapezoid branch leaves the state untouched. -/
theorem totalQuad_mutates_warning_filters (fs : List String) (ts : List ℝ)
    (f : ℝ → Except String (Option ℝ)) (rho : ℝ) (hts : ts ≠ []) :
    (Loss.totalWithWarnings fs ts f rho quadMethod).1
        = integrationWarningFilter :: fs ∧
    integrationWarningFilter ∈ (Loss.totalWithWarnings fs ts f rho quadMethod).1 ∧
    (Loss.totalWithWarnings fs ts f rho quadMethod).1 ≠ fs ∧
    (Loss.totalWithWarnings fs ts f rho trapezoidMethod).1 = fs := by
  obtain ⟨a, ts2, rfl⟩ := List.exists_cons_of_ne_nil hts
  have h1 : (Loss.totalWithWarnings fs (a :: ts2) f rho quadMethod).1
      = integrationWarningFilter :: fs := by
    simp [Loss.totalWithWarnings, quadMethod]
  refine ⟨h1, ?_, ?_, ?_⟩
  · rw [h1]; exact List.mem_cons_self _ _
  · rw [h1]
    intro heq
    have := congrArg List.length heq
    simp at this
  · simp [Loss.totalWithWarnings, trapezoidMethod]

/-- Witness for C10: a concrete quad call starting from an empty filter
state. -/
theorem totalQuad_mutates_warning_filters_witness :
    (Loss.totalWithWarnings [] [0, 1] (fun _ => Except.ok (some 0)) 0 quadMethod).1
        = [integrationWarningFilter] :=
  (totalQuad_mutates_warning_filters [] [0, 1] (fun _ => Except.ok (some 0)) 0
    (by simp)).1

theorem utility_pos_ne_one (c eta : ℝ) (heta : 0 < eta) (hc : 0 < c) (h1 : eta ≠ 1) :
    utility c eta = Except.ok (some (c ^ (1 - eta) / (1 - eta)), false) := by
  simp [utility, not_le.mpr heta, h1, not_le.mpr hc]

theorem utility_pos_one (c : ℝ) (hc : 0 < c) :
    utility c 1 = Except.ok (some (Real.log c), true) := by
  norm_num [utility, not_le.mpr hc]

theorem utility_nonpos_ne_one (c eta : ℝ) (heta : 0 < eta) (hc : c ≤ 0) (h1 : eta ≠ 1) :
    utility c eta = Except.ok (none, false) := by
  simp [utility, not_le.mpr heta, h1, hc]

theorem utility_nonpos_one (c : ℝ) (hc : c ≤ 0) :
    utility c 1 = Except.ok (none, true) := by
  norm_num [utility, hc]

theorem utility_isOk (c eta : ℝ) (heta : 0 < eta) :
    ∃ p, utility c eta = Except.ok p := by
  by_cases h1 : eta = 1
  · subst h1
    by_cases hc : c ≤ 0
    · exact ⟨_, utility_nonpos_one c hc⟩
    · exact ⟨_, utility_pos_one c (lt_of_not_le hc)⟩
  · by_cases hc : c ≤ 0
    · exact ⟨_, utility_nonpos_ne_one c eta heta hc h1⟩
    · exact ⟨_, utility_pos_ne_one c eta heta (lt_of_not_le hc) h1⟩

theorem utility_loss_nan (t l v k_str pi c0 eta : ℝ) (heta : 0 < eta)
    (hct : consumption_t t l v k_str pi c0 ≤ 0) :
    utility_loss_t t l v k_str pi c0 eta = Except.ok none := by
  obtain ⟨p, hp⟩ := utility_isOk c0 eta heta
  by_cases h1 : eta = 1
  · subst h1
    rw [utility_loss_t, hp, utility_nonpos_one _ hct]
    simp
  · rw [utility_loss_t, hp, utility_nonpos_ne_one _ eta heta hct h1]
    simp

/-- C7 (confirmed): with `eta > 0`, a batch containing a non-positive
consumption does not raise: the non-positive element maps to NaN (`none`),
positive elements get their ordinary utility value, and the NaN propagates
through the subtraction inside `utility_loss_t` (making the whole loss value
NaN whenever the consumption is non-positive). -/
theorem utility_nan_guard (eta c cpos t l v k_str pi c0 : ℝ)
    (heta : 0 < eta) (hc : c ≤ 0) (hcpos : 0 < cpos)
    (hct : consumption_t t l v k_str pi c0 ≤ 0) :
    eIsOk (utility c eta) = true ∧
    utilityVal (utility c eta) = none ∧
    eIsOk (utility cpos eta) = true ∧
    utilityVal (utility cpos eta) ≠ none ∧
    eIsOk (utilityList [c, cpos] eta) = true ∧
    utilityListVals (utilityList [c, cpos] eta)
        = [none, utilityVal (utility cpos eta)] ∧
    utility_loss_t t l v k_str pi c0 eta = Except.ok none := by
  by_cases h1 : eta = 1
  · subst h1
    have hu_c := utility_nonpos_one c hc
    have hu_p := utility_pos_one cpos hcpos
    have hlist : utilityList [c, cpos] 1
        = Except.ok ([none, some (Real.log cpos)], true) := by
      norm_num [utilityList, hc, not_le.mpr hcpos]
    refine ⟨?_, ?_, ?_, ?_, ?_, ?_,
      utility_loss_nan t l v k_str pi c0 1 (by norm_num) hct⟩
    · rw [hu_c]; rfl
    · rw [hu_c]; rfl
    · rw [hu_p]; rfl
    · rw [hu_p]; simp [utilityVal]
    · rw [hlist]; rfl
    · rw [hlist, hu_p]; rfl
  · have hu_c := utility_nonpos_ne_one c eta heta hc h1
    have hu_p := utility_pos_ne_one cpos eta heta hcpos h1
    have hlist : utilityList [c, cpos] eta
        = Except.ok ([none, some (cpos ^ (1 - eta) / (1 - eta))], false) := by
      simp [utilityList, not_le.mpr heta, h1, hc, not_le.mpr hcpos]
    refine ⟨?_, ?_, ?_, ?_, ?_, ?_,
      utility_loss_nan t l v k_str pi c0 eta heta hct⟩
    · rw [hu_c]; rfl
    · rw [hu_c]; rfl
    · rw [hu_p]; rfl
    · rw [hu_p]; simp [utilityVal]
    · rw [hlist]; rfl
    · rw [hlist, hu_p]; rfl

/-- Witness for C7: `eta = 2`, batch `[-1, 1]`, and a parameter set whose
consumption at `t = 0` is negative. -/
theorem utility_nan_guard_witness :
    utilityVal (utility (-1) 2) = none ∧
    utility_loss_t 0 1 1 1 1 1 2 = Except.ok none := by
  have h := utility_nan_guard 2 (-1) 1 0 1 1 1 1 1
    (by norm_num) (by norm_num) (by norm_num)
    (by
      rw [consumption_t, consumption_loss_t, income_loss_t, reconstruction_cost_t]
      rw [show (-(1 : ℝ) * 0) = 0 by ring, Real.exp_zero]
      norm_num)
  exact ⟨h.2.1, h.2.2.2.2.2.2⟩

/-- C8 (confirmed): for positive consumption, `utility(c, 1)` is `ln c` and
the deprecation-style `UserWarning` is emitted; `utility(c, 2)` is
`c^(-1) / (-1)`; and every valid `eta != 1` uses the general CRRA formula
`c^(1-eta)/(1-eta)` (without the warning). -/
theorem utility_special_cases (c : ℝ) (hc : 0 < c) :
    utility c 1 = Except.ok (some (Real.log c), true) ∧
    utilityWarned (utility c 1) = true ∧
    utility c 2 = Except.ok (some (c ^ (-1 : ℝ) / (-1)), false) ∧
    (∀ eta : ℝ, 0 < eta → eta ≠ 1 →
      utility c eta = Except.ok (some (c ^ (1 - eta) / (1 - eta)), false)) := by
  refine ⟨utility_pos_one c hc, ?_, ?_, fun eta heta h1 => utility_pos_ne_one c eta heta hc h1⟩
  · rw [utility_pos_one c hc]; rfl
  · rw [utility_pos_ne_one c 2 (by norm_num) hc (by norm_num)]
    norm_num

/-- Witness for C8: the special cases at `c = 2`. -/
theorem utility_special_cases_witness :
    (0 : ℝ) < 2 ∧ utility 2 1 = Except.ok (some (Real.log 2), true) ∧
    utility 2 2 = Except.ok (some ((2 : ℝ) ^ (-1 : ℝ) / (-1)), false) :=
  ⟨by norm_num, (utility_special_cases 2 (by norm_num)).1,
   (utility_special_cases 2 (by norm_num)).2.2.1⟩

theorem exMapM_pure {α β : Type} (g : α → β) (xs : List α) :
    exMapM (fun x => Except.ok (g x)) xs = Except.ok (xs.map g) := by
  induction xs with
  | nil => rfl
  | cons x xs ih => simp [exMapM, ih]

theorem trapzDis_zip_map (rho : ℝ) (g : ℝ → ℝ) :
    ∀ times : List ℝ,
      trapzDis rho (times.zip (times.map (fun t => some (g t))))
        = some (trapzR rho g times)
  | [] => rfl
  | [_] => rfl
  | t1 :: t2 :: rest => by
    have ih := trapzDis_zip_map rho g (t2 :: rest)
    simp only [List.map_cons, List.zip_cons_cons] at ih ⊢
    simp only [trapzDis, trapzR, ih]

theorem total_trap_pure (times : List ℝ) (g : ℝ → ℝ) (rho : ℝ) (h2 : 2 ≤ times.length) :
    Loss.total times (fun t => Except.ok (some (g t))) rho trapezoidMethod
      = Except.ok (some (trapzR rho g times)) := by
  obtain ⟨t0, rest, rfl⟩ :=
    List.exists_cons_of_ne_nil (by rintro rfl; simp at h2 : times ≠ [])
  obtain ⟨t1, ts, rfl⟩ :=
    List.exists_cons_of_ne_nil (by rintro rfl; simp at h2 : rest ≠ [])
  show Loss.total (t0 :: t1 :: ts) _ rho "trapezoid" = _
  simp only [Loss.total, exMapM_pure, trapzDis_zip_map]
  norm_num [List.length_cons]

theorem total_trap_one (times : List ℝ) (f : ℝ → Except String (Option ℝ)) (rho : ℝ)
    (h : times.length = 1) :
    Loss.total times f rho trapezoidMethod = Except.error singlePointMsg := by
  obtain ⟨t0, rest, rfl⟩ :=
    List.exists_cons_of_ne_nil (by rintro rfl; simp at h : times ≠ [])
  have hrest : rest = [] := by
    simpa [List.length_cons] using h
  subst hrest
  show Loss.total [t0] _ rho "trapezoid" = _
  simp [Loss.total]

theorem total_empty (f : ℝ → Except String (Option ℝ)) (rho : ℝ) (m : String) :
    Loss.total [] f rho m = Except.error indexErrMsg := rfl

theorem total_bad_method (times : List ℝ) (f : ℝ → Except String (Option ℝ)) (rho : ℝ)
    (m : String) (hne : times ≠ []) (h1 : m ≠ "trapezoid") (h2 : m ≠ "quad") :
    Loss.total times f rho m = Except.error badMethodMsg := by
  obtain ⟨t0, ts, rfl⟩ := List.exists_cons_of_ne_nil hne
  simp only [Loss.total, if_neg h1, if_neg h2]

theorem total_quad_scalar (times : List ℝ) (f : ℝ → Except String (Option ℝ)) (rho : ℝ)
    (hne : times ≠ []) :
    Loss.total times f rho quadMethod
      = Except.ok (quadModel f (times.getLastD 0) rho) := by
  obtain ⟨t0, ts, rfl⟩ := List.exists_cons_of_ne_nil hne
  show Loss.total (t0 :: ts) _ rho "quad" = _
  simp [Loss.total]

theorem exMapM_pair_fst (f : ℝ → Except String (Option ℝ)) :
    ∀ (xs : List ℝ) (ps : List (ℝ × Option ℝ)),
      exMapM (fun x =>
        match f x with
        | .error e => .error e
        | .ok v => .ok (x, v)) xs = Except.ok ps →
      ps.map Prod.fst = xs
  | [], ps => by
    intro h
    simp only [exMapM] at h
    injection h with h
    rw [← h]
    rfl
  | x :: xs, ps => by
    intro h
    simp only [exMapM] at h
    cases hfx : f x with
    | error e => rw [hfx] at h; exact absurd h (by simp)
    | ok v =>
      rw [hfx] at h
      cases hrec : exMapM (fun x =>
          match f x with
          | .error e => .error e
          | .ok v => .ok (x, v)) xs with
      | error e => rw [hrec] at h; exact absurd h (by simp)
      | ok ys =>
        rw [hrec] at h
        injection h with h
        rw [← h, List.map_cons, exMapM_pair_fst f xs ys hrec]

theorem pickBest_mem :
    ∀ (rest : List (ℝ × Option ℝ)) (c : ℝ × Option ℝ),
      pickBest c rest ∈ (c :: rest).map Prod.fst
  | [], c => by simp [pickBest]
  | p :: rest, c => by
    simp only [pickBest]
    by_cases h : improves c.2 p.2
    · rw [if_pos h]
      have hmem := pickBest_mem rest p
      simp only [List.map_cons] at hmem ⊢
      exact List.mem_cons_of_mem _ hmem
    · rw [if_neg h]
      have hmem := pickBest_mem rest c
      simp only [List.map_cons, List.mem_cons] at hmem ⊢
      rcases hmem with h1 | h1
      · exact Or.inl h1
      · exact Or.inr (Or.inr h1)

theorem nmCandidates_mem_Icc (l_min l_max : ℝ) (hle : l_min ≤ l_max) :
    ∀ x ∈ nmCandidates l_min l_max, l_min ≤ x ∧ x ≤ l_max := by
  intro x hx
  rw [nmCandidates] at hx
  simp only [List.mem_map, List.mem_range] at hx
  obtain ⟨i, hi, rfl⟩ := hx
  have hsub : (0 : ℝ) ≤ l_max - l_min := sub_nonneg.mpr hle
  have hi100 : (i : ℝ) ≤ 100 := by exact_mod_cast Nat.lt_succ_iff.mp hi
  have h0 : (0 : ℝ) ≤ (l_max - l_min) * (i : ℝ) / 100 := by positivity
  have h1 : (l_max - l_min) * (i : ℝ) / 100 ≤ l_max - l_min := by
    rw [div_le_iff₀ (by norm_num : (0 : ℝ) < 100)]
    nlinarith
  constructor
  · linarith
  · linarith

theorem minimizeNM_within (f : ℝ → Except String (Option ℝ)) (l_min l_max : ℝ)
    (hle : l_min ≤ l_max) :
    resultWithin (minimizeNM f l_min l_max) l_min l_max := by
  cases hm : exMapM (fun x =>
      match f x with
      | .error e => .error e
      | .ok v => .ok (x, v)) (nmCandidates l_min l_max) with
  | error e => simp [minimizeNM, hm, resultWithin]
  | ok ps =>
    cases ps with
    | nil =>
      simp only [minimizeNM, hm, resultWithin]
      exact ⟨le_refl _, hle⟩
    | cons c rest =>
      have hfst := exMapM_pair_fst f (nmCandidates l_min l_max) (c :: rest) hm
      have hmem := pickBest_mem rest c
      rw [hfst] at hmem
      have hb := nmCandidates_mem_Icc l_min l_max hle _ hmem
      simp only [minimizeNM, hm, resultWithin]
      exact hb

/-- C5 (confirmed): whatever the household parameters, bounds with
`l_min <= l_max`, time inputs and method string, whenever `opt_lambda`
returns a value at all, that value lies in the closed interval
`[l_min, l_max]` (the modelled bounded simplex search only ever evaluates and
returns points of that interval, seeded at `l_min`). -/
theorem opt_lambda_within_bounds (v k_str c0 pi eta l_min l_max : ℝ)
    (tm : ℝ) (ts : List ℝ) (m : String) (hle : l_min ≤ l_max) :
    resultWithin (opt_lambda v k_str c0 pi eta l_min l_max (some tm) (some ts) m)
      l_min l_max := by
  rw [opt_lambda]
  by_cases hq : m = "quad"
  · rw [if_pos hq]
    exact minimizeNM_within _ _ _ hle
  · rw [if_neg hq]
    by_cases htr : m = "trapezoid"
    · rw [if_pos htr]
      exact minimizeNM_within _ _ _ hle
    · rw [if_neg htr]
      exact minimizeNM_within _ _ _ hle

/-- Witness for C5: a concrete bounded call. -/
theorem opt_lambda_within_bounds_witness :
    (1 : ℝ) ≤ 2 ∧
    resultWithin (opt_lambda 1 1 1 1 1 1 2 (some 1) (some [0, 1]) trapezoidMethod) 1 2 :=
  ⟨by norm_num,
   opt_lambda_within_bounds 1 1 1 1 1 1 2 1 [0, 1] trapezoidMethod (by norm_num)⟩

/-- C9 (counterexample): on an empty time grid — which has fewer than 2
points — `Loss.total` with the trapezoid method raises the IndexError from
reading `self.t[-1]`, not the claimed validation error. -/
theorem total_empty_grid_not_validation :
    Loss.total [] (fun _ => Except.ok (some 0)) 0 trapezoidMethod
        = Except.error indexErrMsg ∧
    Loss.total [] (fun _ => Except.ok (some 0)) 0 trapezoidMethod
        ≠ Except.error singlePointMsg := by
  refine ⟨rfl, ?_⟩
  rw [total_empty]
  simp [indexErrMsg, singlePointMsg]

/-- C9 (amended): `Loss.total` raises the claimed validation errors on a
1-point grid with the trapezoid method and on an unknown method string over a
non-empty grid; on an empty grid it instead raises an IndexError (reading the
last grid point) before any validation, whatever the method; and for valid
inputs with a single recovery rate it returns a scalar (`Except.ok`): the
trapezoidal total for an everywhere-defined rate function and the quadrature
value for quad. -/
theorem total_validation_and_scalar (times : List ℝ)
    (f : ℝ → Except String (Option ℝ)) (g : ℝ → ℝ) (rho : ℝ) (m : String) :
    (times.length = 1 →
      Loss.total times f rho trapezoidMethod = Except.error singlePointMsg) ∧
    (times ≠ [] → m ≠ "trapezoid" → m ≠ "quad" →
      Loss.total times f rho m = Except.error badMethodMsg) ∧
    (times = [] → Loss.total times f rho m = Except.error indexErrMsg) ∧
    (2 ≤ times.length →
      Loss.total times (fun t => Except.ok (some (g t))) rho trapezoidMethod
        = Except.ok (some (trapzR rho g times))) ∧
    (times ≠ [] →
      Loss.total times f rho quadMethod
        = Except.ok (quadModel f (times.getLastD 0) rho)) :=
  ⟨total_trap_one times f rho,
   total_bad_method times f rho m,
   fun h => by rw [h]; exact total_empty f rho m,
   total_trap_pure times g rho,
   total_quad_scalar times f rho⟩

theorem consumption_t_at0 (l : ℝ) : consumption_t 0 l 1 1 0 2 = 2 - l := by
  rw [consumption_t, consumption_loss_t, income_loss_t, reconstruction_cost_t,
      show -l * 0 = 0 by ring, Real.exp_zero]
  ring

theorem consumption_t_at1 (l : ℝ) : consumption_t 1 l 1 1 0 2 = 2 - l * Real.exp (-l) := by
  rw [consumption_t, consumption_loss_t, income_loss_t, reconstruction_cost_t,
      show -l * 1 = -l by ring]
  ring

theorem C4total_eval (l : ℝ) (hl : 0 < l) (h2 : l < 2) :
    C4total l = Except.ok (some
      (((1 : ℝ) - 0) *
        (((2 : ℝ) ^ ((1 : ℝ) - 2) / (1 - 2) - (2 - l) ^ ((1 : ℝ) - 2) / (1 - 2))
            * Real.exp (-0 * 0)
          + ((2 : ℝ) ^ ((1 : ℝ) - 2) / (1 - 2)
              - (2 - l * Real.exp (-l)) ^ ((1 : ℝ) - 2) / (1 - 2))
            * Real.exp (-0 * 1)) / 2 + 0)) := by
  have hA : (0 : ℝ) < 2 - l := by linarith
  have hexp : Real.exp (-l) < 1 := Real.exp_lt_one_iff.mpr (by linarith)
  have hexppos : 0 < Real.exp (-l) := Real.exp_pos _
  have hB : (0 : ℝ) < 2 - l * Real.exp (-l) := by nlinarith
  have f0 : utility_loss_t 0 l 1 1 0 2 2
      = Except.ok (some ((2 : ℝ) ^ ((1 : ℝ) - 2) / (1 - 2)
          - (2 - l) ^ ((1 : ℝ) - 2) / (1 - 2))) := by
    rw [utility_loss_t, utility_pos_ne_one 2 2 (by norm_num) (by norm_num) (by norm_num),
        consumption_t_at0, utility_pos_ne_one (2 - l) 2 (by norm_num) hA (by norm_num)]
    rfl
  have f1 : utility_loss_t 1 l 1 1 0 2 2
      = Except.ok (some ((2 : ℝ) ^ ((1 : ℝ) - 2) / (1 - 2)
          - (2 - l * Real.exp (-l)) ^ ((1 : ℝ) - 2) / (1 - 2))) := by
    rw [utility_loss_t, utility_pos_ne_one 2 2 (by norm_num) (by norm_num) (by norm_num),
        consumption_t_at1, utility_pos_ne_one _ 2 (by norm_num) hB (by norm_num)]
    rfl
  rw [C4total]
  show Loss.total [0, 1] _ 0 "trapezoid" = _
  simp only [Loss.total, utilityLossFun, exMapM, f0, f1]
  norm_num [trapzDis]

/-- C4 (counterexample): with `v = 1`, `k_str = 1`, `pi = 0`, `c0 = 2`,
`eta = 2`, `rho = 0` and the grid `[0, 1]`, the total discounted utility loss
at the larger recovery rate `1.9` is strictly greater than at `1`, so the
total is not non-increasing in the recovery rate. -/
theorem utility_loss_total_not_monotone :
    exceptLtSome (C4total 1) (C4total (19 / 10)) := by
  have e1 := C4total_eval 1 (by norm_num) (by norm_num)
  have e2 := C4total_eval (19 / 10) (by norm_num) (by norm_num)
  rw [e1, e2]
  simp only [exceptLtSome]
  have hr : ∀ x : ℝ, x ^ ((1 : ℝ) - 2) = x⁻¹ := fun x => by
    rw [show ((1 : ℝ) - 2) = -1 by norm_num, Real.rpow_neg_one]
  have hE1pos : 0 < Real.exp (-1 : ℝ) := Real.exp_pos _
  have hE1lt : Real.exp (-1 : ℝ) < 1 := Real.exp_lt_one_iff.mpr (by norm_num)
  have hE2pos : 0 < Real.exp (-(19 / 10) : ℝ) := Real.exp_pos _
  have hE2lt : Real.exp (-(19 / 10) : ℝ) < 1 := Real.exp_lt_one_iff.mpr (by norm_num)
  have hden1 : (0 : ℝ) < 2 - Real.exp (-1 : ℝ) := by linarith
  have hden2 : (0 : ℝ) < 2 - (19 / 10) * Real.exp (-(19 / 10) : ℝ) := by nlinarith
  have hu : (2 - Real.exp (-1 : ℝ))⁻¹ ≤ 1 := by
    have h := (div_le_one hden1).mpr (by linarith : (1 : ℝ) ≤ 2 - Real.exp (-1 : ℝ))
    rwa [one_div] at h
  have hv : 0 < (2 - (19 / 10) * Real.exp (-(19 / 10) : ℝ))⁻¹ := inv_pos.mpr hden2
  simp only [hr]
  norm_num [Real.exp_zero]
  nlinarith [hu, hv]

theorem trapzR_mono (rho : ℝ) (g1 g2 : ℝ → ℝ) :
    ∀ times : List ℝ, times.Chain' (· ≤ ·) →
      (∀ t ∈ times, g2 t ≤ g1 t) →
      trapzR rho g2 times ≤ trapzR rho g1 times
  | [] => fun _ _ => le_refl _
  | [_] => fun _ _ => le_refl _
  | t1 :: t2 :: rest => by
    intro hchain hg
    have hstep : t1 ≤ t2 := (List.chain'_cons.mp hchain).1
    have htail : (t2 :: rest).Chain' (· ≤ ·) := (List.chain'_cons.mp hchain).2
    have hgtail : ∀ t ∈ t2 :: rest, g2 t ≤ g1 t := fun t ht =>
      hg t (List.mem_cons_of_mem _ ht)
    have ih := trapzR_mono rho g1 g2 (t2 :: rest) htail hgtail
    simp only [trapzR]
    have h1 : g2 t1 ≤ g1 t1 := hg t1 (List.mem_cons_self _ _)
    have h2 : g2 t2 ≤ g1 t2 := hg t2 (List.mem_cons_of_mem _ (List.mem_cons_self _ _))
    have hw : (0 : ℝ) ≤ t2 - t1 := by linarith
    have he1 : (0 : ℝ) < Real.exp (-rho * t1) := Real.exp_pos _
    have he2 : (0 : ℝ) < Real.exp (-rho * t2) := Real.exp_pos _
    have hterm : g2 t1 * Real.exp (-rho * t1) + g2 t2 * Real.exp (-rho * t2)
        ≤ g1 t1 * Real.exp (-rho * t1) + g1 t2 * Real.exp (-rho * t2) := by
      have := mul_le_mul_of_nonneg_right h1 (le_of_lt he1)
      have := mul_le_mul_of_nonneg_right h2 (le_of_lt he2)
      linarith
    have := mul_le_mul_of_nonneg_left hterm hw
    linarith [ih, mul_le_mul_of_nonneg_left hterm hw]

/-- C4 (amended): the claimed monotonicity fails for the utility loss (see
the counterexample), but it does hold for the income-loss component of the
model: for every sorted grid of non-negative times with at least 2 points,
non-negative `v`, `k_str`, `pi`, any discount rate, and recovery rates
`0 < l1 <= l2`, the total discounted income loss at `l2` is at most the one
at `l1`. -/
theorem income_loss_total_antitone (times : List ℝ) (v k_str pi rho l1 l2 : ℝ)
    (hsort : times.Chain' (· ≤ ·)) (hpos : ∀ t ∈ times, 0 ≤ t)
    (hv : 0 ≤ v) (hk : 0 ≤ k_str) (hpi : 0 ≤ pi)
    (hl1 : 0 < l1) (hl12 : l1 ≤ l2) (hlen : 2 ≤ times.length) :
    Loss.total times (fun t => Except.ok (some (income_loss_t t l2 v k_str pi)))
        rho trapezoidMethod
      = Except.ok (some (trapzR rho (fun t => income_loss_t t l2 v k_str pi) times)) ∧
    Loss.total times (fun t => Except.ok (some (income_loss_t t l1 v k_str pi)))
        rho trapezoidMethod
      = Except.ok (some (trapzR rho (fun t => income_loss_t t l1 v k_str pi) times)) ∧
    trapzR rho (fun t => income_loss_t t l2 v k_str pi) times
      ≤ trapzR rho (fun t => income_loss_t t l1 v k_str pi) times := by
  refine ⟨total_trap_pure times _ rho hlen, total_trap_pure times _ rho hlen, ?_⟩
  refine trapzR_mono rho _ _ times hsort ?_
  intro t ht
  rw [income_loss_t, income_loss_t]
  have hexp : Real.exp (-l2 * t) ≤ Real.exp (-l1 * t) := by
    apply Real.exp_le_exp.mpr
    have := hpos t ht
    nlinarith
  have hfac : (0 : ℝ) ≤ pi * v * k_str := by positivity
  exact mul_le_mul_of_nonneg_left hexp hfac

/-- Witness for C4: the amended income-loss monotonicity on the grid
`[0, 1]` with `v = k_str = pi = 1`, `rho = 0`, `l1 = 1`, `l2 = 2`. -/
theorem income_loss_total_antitone_witness :
    trapzR 0 (fun t => income_loss_t t 2 1 1 1) [0, 1]
      ≤ trapzR 0 (fun t => income_loss_t t 1 1 1 1) [0, 1] :=
  (income_loss_total_antitone [0, 1] 1 1 1 0 1 2
    (by simp) (by intro t ht; simp at ht; rcases ht with rfl | rfl <;> norm_num)
    (by norm_num) (by norm_num) (by norm_num) (by norm_num) (by norm_num)
    (by simp)).2.2

/-- Witness for C9: each clause of the amended statement at concrete
inputs. -/
theorem total_validation_and_scalar_witness :
    Loss.total [5] (fun _ => Except.ok (some 0)) 0 trapezoidMethod
        = Except.error singlePointMsg ∧
    Loss.total [0, 1] (fun _ => Except.ok (some 0)) 0 "bogus"
        = Except.error badMethodMsg ∧
    Loss.total [] (fun _ => Except.ok (some 0)) 0 quadMethod
        = Except.error indexErrMsg ∧
    Loss.total [0, 1] (fun t => Except.ok (some ((fun _ => (3 : ℝ)) t))) 0 trapezoidMethod
        = Except.ok (some (trapzR 0 (fun _ => (3 : ℝ)) [0, 1])) := by
  have h1 := total_validation_and_scalar [5] (fun _ => Except.ok (some 0))
    (fun _ => (3 : ℝ)) 0 trapezoidMethod
  have h2 := total_validation_and_scalar [0, 1] (fun _ => Except.ok (some 0))
    (fun _ => (3 : ℝ)) 0 "bogus"
  have h3 := total_validation_and_scalar ([] : List ℝ) (fun _ => Except.ok (some 0))
    (fun _ => (3 : ℝ)) 0 quadMethod
  exact ⟨h1.1 (by simp), h2.2.1 (by simp) (by simp) (by simp),
    h3.2.2.1 rfl, h2.2.2.2.1 (by simp)⟩


theorem exMapM_ok {α β : Type} (f : α → Except String β) :
    ∀ xs : List α, (∀ x ∈ xs, ∃ v, f x = Except.ok v) →
      ∃ ys, exMapM f xs = Except.ok ys
  | [], _ => ⟨[], rfl⟩
  | x :: xs, h => by
    obtain ⟨v, hv⟩ := h x (List.mem_cons_self _ _)
    obtain ⟨ys, hys⟩ := exMapM_ok f xs (fun y hy => h y (List.mem_cons_of_mem _ hy))
    exact ⟨v :: ys, by simp [exMapM, hv, hys]⟩

theorem total_trap_ok (times : List ℝ) (f : ℝ → Except String (Option ℝ)) (rho : ℝ)
    (h2 : 2 ≤ times.length) (hok : ∀ t ∈ times, ∃ v, f t = Except.ok v) :
    ∃ w, Loss.total times f rho trapezoidMethod = Except.ok w := by
  obtain ⟨t0, rest, rfl⟩ :=
    List.exists_cons_of_ne_nil (by rintro rfl; simp at h2 : times ≠ [])
  obtain ⟨t1, ts, rfl⟩ :=
    List.exists_cons_of_ne_nil (by rintro rfl; simp at h2 : rest ≠ [])
  obtain ⟨ys, hys⟩ := exMapM_ok f (t0 :: t1 :: ts) hok
  refine ⟨trapzDis rho ((t0 :: t1 :: ts).zip ys), ?_⟩
  show Loss.total (t0 :: t1 :: ts) _ rho "trapezoid" = _
  simp only [Loss.total, hys]
  norm_num [List.length_cons]

theorem trapzDis_head_none (rho : ℝ) (t0 : ℝ) (p2 : ℝ × Option ℝ)
    (rest : List (ℝ × Option ℝ)) :
    trapzDis rho ((t0, none) :: p2 :: rest) = none := by
  cases hp : p2.2 <;> cases ht : trapzDis rho (p2 :: rest) <;>
    simp [trapzDis, hp, ht]

theorem total_trap_none (times : List ℝ) (f : ℝ → Except String (Option ℝ)) (rho : ℝ)
    (h2 : 2 ≤ times.length) (hok : ∀ t ∈ times, ∃ v, f t = Except.ok v)
    (hhead : f (times.getD 0 0) = Except.ok none) :
    Loss.total times f rho trapezoidMethod = Except.ok none := by
  obtain ⟨t0, rest, rfl⟩ :=
    List.exists_cons_of_ne_nil (by rintro rfl; simp at h2 : times ≠ [])
  obtain ⟨t1, ts, rfl⟩ :=
    List.exists_cons_of_ne_nil (by rintro rfl; simp at h2 : rest ≠ [])
  have hh : f t0 = Except.ok none := hhead
  obtain ⟨v1, hv1⟩ := hok t1 (List.mem_cons_of_mem _ (List.mem_cons_self _ _))
  obtain ⟨ys, hys⟩ := exMapM_ok f ts
    (fun y hy => hok y (List.mem_cons_of_mem _ (List.mem_cons_of_mem _ hy)))
  have hmm : exMapM f (t0 :: t1 :: ts) = Except.ok (none :: v1 :: ys) := by
    simp [exMapM, hh, hv1, hys]
  show Loss.total (t0 :: t1 :: ts) _ rho "trapezoid" = _
  simp only [Loss.total, hmm]
  norm_num [List.length_cons, List.zip_cons_cons, trapzDis_head_none]

theorem utility_loss_isOk (t l v k_str pi c0 eta : ℝ) (heta : 0 < eta) :
    ∃ w, utility_loss_t t l v k_str pi c0 eta = Except.ok w := by
  obtain ⟨p, hp⟩ := utility_isOk c0 eta heta
  obtain ⟨q, hq⟩ := utility_isOk (consumption_t t l v k_str pi c0) eta heta
  exact ⟨_, by rw [utility_loss_t, hp, hq]⟩

theorem linspace_getLastD (a b : ℝ) (n : ℕ) (h2 : 2 ≤ n) :
    (linspace a b n).getLastD 0 = b := by
  obtain ⟨m, rfl⟩ : ∃ m, n = m + 1 := ⟨n - 1, by omega⟩
  have hm : 1 ≤ m := by omega
  rw [linspace, List.range_succ, List.map_append, List.map_singleton,
      List.getLastD_concat]
  have hcast : ((m + 1 : ℕ) : ℝ) - 1 = (m : ℝ) := by push_cast; ring
  have hmne : (m : ℝ) ≠ 0 := by
    have : (1 : ℝ) ≤ (m : ℝ) := by exact_mod_cast hm
    linarith
  rw [hcast, mul_div_assoc, div_self hmne]
  ring

theorem linspace_mem_Icc (a b : ℝ) (n : ℕ) (hab : a ≤ b) :
    ∀ x ∈ linspace a b n, a ≤ x ∧ x ≤ b := by
  intro x hx
  rw [linspace] at hx
  simp only [List.mem_map, List.mem_range] at hx
  obtain ⟨i, hi, rfl⟩ := hx
  by_cases h1 : n = 1
  · subst h1
    have : i = 0 := by omega
    subst this
    constructor <;> norm_num [hab]
  · have hn2 : 2 ≤ n := by omega
    have hd : (0 : ℝ) < (n : ℝ) - 1 := by
      have : (2 : ℝ) ≤ (n : ℝ) := by exact_mod_cast hn2
      linarith
    have hile : (i : ℝ) ≤ (n : ℝ) - 1 := by
      have : (i : ℝ) + 1 ≤ (n : ℝ) := by exact_mod_cast hi
      linarith
    have hinn : (0 : ℝ) ≤ (i : ℝ) := Nat.cast_nonneg i
    have hsub : (0 : ℝ) ≤ b - a := sub_nonneg.mpr hab
    constructor
    · have : 0 ≤ (b - a) * (i : ℝ) / ((n : ℝ) - 1) := by positivity
      linarith
    · have : (b - a) * (i : ℝ) / ((n : ℝ) - 1) ≤ b - a := by
        rw [div_le_iff₀ hd]
        nlinarith
      linarith

theorem foldl_min_mem : ∀ (xs : List ℝ) (x : ℝ), xs.foldl min x ∈ x :: xs
  | [], x => by simp
  | a :: as, x => by
    have h := foldl_min_mem as (min x a)
    simp only [List.foldl_cons]
    rcases List.mem_cons.mp h with h1 | h1
    · rcases min_choice x a with hm | hm <;> rw [h1, hm]
      · exact List.mem_cons_self _ _
      · exact List.mem_cons_of_mem _ (List.mem_cons_self _ _)
    · exact List.mem_cons_of_mem _ (List.mem_cons_of_mem _ h1)

theorem foldl_max_mem : ∀ (xs : List ℝ) (x : ℝ), xs.foldl max x ∈ x :: xs
  | [], x => by simp
  | a :: as, x => by
    have h := foldl_max_mem as (max x a)
    simp only [List.foldl_cons]
    rcases List.mem_cons.mp h with h1 | h1
    · rcases max_choice x a with hm | hm <;> rw [h1, hm]
      · exact List.mem_cons_self _ _
      · exact List.mem_cons_of_mem _ (List.mem_cons_self _ _)
    · exact List.mem_cons_of_mem _ (List.mem_cons_of_mem _ h1)

theorem foldl_min_le_head : ∀ (xs : List ℝ) (x : ℝ), xs.foldl min x ≤ x
  | [], _ => le_refl _
  | a :: as, x => by
    simp only [List.foldl_cons]
    exact le_trans (foldl_min_le_head as (min x a)) (min_le_left x a)

theorem le_foldl_max_head : ∀ (xs : List ℝ) (x : ℝ), x ≤ xs.foldl max x
  | [], _ => le_refl _
  | a :: as, x => by
    simp only [List.foldl_cons]
    exact le_trans (le_max_left x a) (le_foldl_max_head as (max x a))

theorem minimizeNM_ok (f : ℝ → Except String (Option ℝ)) (l_min l_max : ℝ)
    (hle : l_min ≤ l_max)
    (hok : ∀ x ∈ nmCandidates l_min l_max, ∃ v, f x = Except.ok v) :
    ∃ lam, minimizeNM f l_min l_max = Except.ok lam ∧ l_min ≤ lam ∧ lam ≤ l_max := by
  have hpair : ∀ x ∈ nmCandidates l_min l_max,
      ∃ p, (fun x =>
        match f x with
        | .error e => .error e
        | .ok v => Except.ok (x, v)) x = Except.ok p := by
    intro x hx
    obtain ⟨v, hv⟩ := hok x hx
    exact ⟨(x, v), by simp [hv]⟩
  obtain ⟨ps, hps⟩ := exMapM_ok _ (nmCandidates l_min l_max) hpair
  cases ps with
  | nil =>
    refine ⟨l_min, ?_, le_refl _, hle⟩
    simp [minimizeNM, hps]
  | cons c rest =>
    have hfst := exMapM_pair_fst f (nmCandidates l_min l_max) (c :: rest) hps
    have hmem := pickBest_mem rest c
    rw [hfst] at hmem
    have hb := nmCandidates_mem_Icc l_min l_max hle _ hmem
    exact ⟨pickBest c rest, by simp [minimizeNM, hps], hb.1, hb.2⟩

theorem grid_default_eq : householdGrid 10 (1 / 52) = linspace 0 10 522 := by
  rw [householdGrid, householdGrid_numPoints_default]

theorem grid_default_two_le : 2 ≤ (householdGrid 10 (1 / 52)).length := by
  rw [grid_default_eq, linspace_length]
  norm_num

theorem grid_default_head : (householdGrid 10 (1 / 52)).getD 0 0 = 0 := by
  rw [grid_default_eq, linspace_getD 0 10 522 0 (by norm_num)]
  norm_num

theorem grid_default_last : (householdGrid 10 (1 / 52)).getLastD 0 = 10 := by
  rw [grid_default_eq]
  exact linspace_getLastD 0 10 522 (by norm_num)

theorem log20_pos : 0 < Real.log (1 / (1 - (95 : ℝ) / 100)) := by
  rw [show (1 / (1 - (95 : ℝ) / 100)) = 20 by norm_num]
  exact Real.log_pos (by norm_num)

theorem log20_lt_three : Real.log (1 / (1 - (95 : ℝ) / 100)) < 3 := by
  rw [show (1 / (1 - (95 : ℝ) / 100)) = 20 by norm_num,
      Real.log_lt_iff_lt_exp (by norm_num)]
  have h1 : (2.7182818283 : ℝ) ^ (3 : ℕ) < Real.exp 1 ^ (3 : ℕ) := by
    gcongr
    exact_mod_cast Real.exp_one_gt_d9
  have h2 : Real.exp 1 ^ (3 : ℕ) = Real.exp 3 := by
    rw [Real.exp_one_pow]
    norm_num
  have h3 : (20 : ℝ) < (2.7182818283 : ℝ) ^ (3 : ℕ) := by norm_num
  linarith

theorem C3_lambdas_mem (z : ℝ)
    (hz : z ∈ (linspace 0.3 10 1000).map
      (fun t => Real.log (1 / (1 - (95 : ℝ) / 100)) / t)) :
    0 < z ∧ z < 10 := by
  simp only [List.mem_map] at hz
  obtain ⟨t, ht, rfl⟩ := hz
  obtain ⟨ht1, ht2⟩ := linspace_mem_Icc 0.3 10 1000 (by norm_num) t ht
  have ht0 : 0 < t := lt_of_lt_of_le (by norm_num) ht1
  constructor
  · exact div_pos log20_pos ht0
  · rw [div_lt_iff₀ ht0]
    nlinarith [log20_lt_three]

theorem C3run_eval : ∃ lam : ℝ, 0 < lam ∧ lam < 10 ∧
    C3run = Except.ok
      ((⟨0.4, 100000, 2000, 1800, 0.15, 1.5, 0.06, 10,
          householdDt 10 (1 / 52), householdGrid 10 (1 / 52),
          some lam, some (Real.log (1 / (1 - (95 : ℝ) / 100)) / lam)⟩ : Household),
        lam) := by
  have hrl : recovery_rateL (linspace 0.3 10 1000) 95
      = Except.ok ((linspace 0.3 10 1000).map
          (fun t => Real.log (1 / (1 - (95 : ℝ) / 100)) / t)) := by
    rw [recovery_rateL, if_neg, if_neg (not_not_intro ⟨by norm_num, by norm_num⟩)]
    rintro ⟨t, ht, hle⟩
    have := (linspace_mem_Icc 0.3 10 1000 (by norm_num) t ht).1
    linarith
  have hlam_ne : (linspace 0.3 10 1000).map
      (fun t => Real.log (1 / (1 - (95 : ℝ) / 100)) / t) ≠ [] := by
    intro h
    have := congrArg List.length h
    rw [List.length_map, linspace_length] at this
    simp at this
  obtain ⟨y, ys, hyys⟩ := List.exists_cons_of_ne_nil hlam_ne
  have hmin : listMin ((linspace 0.3 10 1000).map
      (fun t => Real.log (1 / (1 - (95 : ℝ) / 100)) / t))
      = Except.ok (ys.foldl min y) := by
    rw [hyys]; rfl
  have hmax : listMax ((linspace 0.3 10 1000).map
      (fun t => Real.log (1 / (1 - (95 : ℝ) / 100)) / t))
      = Except.ok (ys.foldl max y) := by
    rw [hyys]; rfl
  have hminmem : ys.foldl min y ∈ (linspace 0.3 10 1000).map
      (fun t => Real.log (1 / (1 - (95 : ℝ) / 100)) / t) := by
    rw [hyys]; exact foldl_min_mem ys y
  have hmaxmem : ys.foldl max y ∈ (linspace 0.3 10 1000).map
      (fun t => Real.log (1 / (1 - (95 : ℝ) / 100)) / t) := by
    rw [hyys]; exact foldl_max_mem ys y
  have hminb := C3_lambdas_mem _ hminmem
  have hmaxb := C3_lambdas_mem _ hmaxmem
  have hle : ys.foldl min y ≤ ys.foldl max y :=
    le_trans (foldl_min_le_head ys y) (le_foldl_max_head ys y)
  obtain ⟨sw1, hsw1⟩ := exMapM_ok
    (fun l0 => Loss.total (householdGrid 10 (1 / 52))
      (fun t => Except.ok (some (reconstruction_cost_t t l0 0.4 100000)))
      0 trapezoidMethod) ((linspace 0.3 10 1000).map
      (fun t => Real.log (1 / (1 - (95 : ℝ) / 100)) / t))
    (fun l0 _ => ⟨_, total_trap_pure _ _ 0 grid_default_two_le⟩)
  obtain ⟨sw2, hsw2⟩ := exMapM_ok
    (fun l0 => Loss.total (householdGrid 10 (1 / 52))
      (fun t => Except.ok (some (income_loss_t t l0 0.4 100000 0.15)))
      0 trapezoidMethod) ((linspace 0.3 10 1000).map
      (fun t => Real.log (1 / (1 - (95 : ℝ) / 100)) / t))
    (fun l0 _ => ⟨_, total_trap_pure _ _ 0 grid_default_two_le⟩)
  obtain ⟨sw3, hsw3⟩ := exMapM_ok
    (fun l0 => Loss.total (householdGrid 10 (1 / 52))
      (fun t => Except.ok (some (consumption_loss_t t l0 0.4 100000 0.15)))
      0 trapezoidMethod) ((linspace 0.3 10 1000).map
      (fun t => Real.log (1 / (1 - (95 : ℝ) / 100)) / t))
    (fun l0 _ => ⟨_, total_trap_pure _ _ 0 grid_default_two_le⟩)
  obtain ⟨sw4, hsw4⟩ := exMapM_ok
    (fun l0 => Loss.total (householdGrid 10 (1 / 52))
      (utilityLossFun l0 0.4 100000 0.15 2000 1.5) 0 trapezoidMethod) ((linspace 0.3 10 1000).map
      (fun t => Real.log (1 / (1 - (95 : ℝ) / 100)) / t))
    (fun l0 _ => total_trap_ok _ _ 0 grid_default_two_le
      (fun t _ => utility_loss_isOk t l0 0.4 100000 0.15 2000 1.5 (by norm_num)))
  obtain ⟨lam, hlamEq, hlam1, hlam2⟩ := minimizeNM_ok
    (fun l => Loss.total (householdGrid 10 (1 / 52))
      (utilityLossFun l 0.4 100000 0.15 2000 1.5) 0 trapezoidMethod)
    (ys.foldl min y) (ys.foldl max y) hle
    (fun x _ => total_trap_ok _ _ 0 grid_default_two_le
      (fun t _ => utility_loss_isOk t x 0.4 100000 0.15 2000 1.5 (by norm_num)))
  have hlam0 : 0 < lam := lt_of_lt_of_le hminb.1 hlam1
  have hlam10 : lam < 10 := lt_of_le_of_lt hlam2 hmaxb.2
  have hopt : FiatToolbox.opt_lambda 0.4 100000 2000 0.15 1.5
      (ys.foldl min y) (ys.foldl max y) (some 10)
      (some (householdGrid 10 (1 / 52))) trapezoidMethod = Except.ok lam := by
    rw [opt_lambda, if_neg (by decide : ¬(trapezoidMethod = "quad")),
        if_pos (show trapezoidMethod = "trapezoid" by rfl)]
    exact hlamEq
  have hrt : FiatToolbox.recovery_time lam 95
      = Except.ok (Real.log (1 / (1 - (95 : ℝ) / 100)) / lam) := by
    rw [recovery_time, if_neg (not_le.mpr hlam0),
        if_neg (not_not_intro ⟨by norm_num, by norm_num⟩)]
  refine ⟨lam, hlam0, hlam10, ?_⟩
  rw [C3run, Household.opt_lambda]
  simp only [H0, Option.getD_none, grid_default_last, hrl, hsw1, hsw2, hsw3, hsw4,
    hmin, hmax, hopt, hrt]

theorem equity_weight_default_lt_one : equity_weight 2000 1800 1.5 < 1 := by
  rw [equity_weight]
  exact Real.rpow_lt_one_of_one_lt_of_neg (by norm_num) (by norm_num)

theorem equity_weight_default_pos : 0 < equity_weight 2000 1800 1.5 := by
  rw [equity_weight]
  exact Real.rpow_pos_of_pos (by norm_num) _

theorem equity_weighted_lt_asset :
    equity_weight 2000 1800 1.5 * (0.4 : ℝ) * 100000 < (0.4 : ℝ) * 100000 := by
  nlinarith [equity_weight_default_lt_one, equity_weight_default_pos]

/-- C3 (counterexample): at the claimed household parameters
(`c0 = 2000`, `c_avg = 1800`, `eta = 1.5`, `v = 0.4`, `k_str = 100000`) the
equity weight `(c0/c_avg)^(-eta)` is below 1, so the equity-weighted loss is
strictly below the asset loss `40000` — the claimed
`equity_weighted_loss > asset_loss` is false. -/
theorem equity_weighted_not_above_asset :
    ¬ ((0.4 : ℝ) * 100000 < equity_weight 2000 1800 1.5 * (0.4 : ℝ) * 100000) := by
  intro h
  exact absurd equity_weighted_lt_asset (not_lt.mpr (le_of_lt h))

theorem C3_losses_eval (lam : ℝ) (rt : Option ℝ) (h0lam : 0 < lam) :
    ∃ r1 r2 r3 : ℝ,
      Household.get_losses
        ⟨0.4, 100000, 2000, 1800, 0.15, 1.5, 0.06, 10,
          householdDt 10 (1 / 52), householdGrid 10 (1 / 52), some lam, rt⟩
        trapezoidMethod
      = Except.ok ⟨some r1, some r2, some r3, none, none,
          (0.4 : ℝ) * 100000, equity_weight 2000 1800 1.5 * 0.4 * 100000⟩ := by
  have hct : consumption_t 0 lam 0.4 100000 0.15 2000 ≤ 0 := by
    rw [consumption_t, consumption_loss_t, income_loss_t, reconstruction_cost_t,
        show -lam * 0 = 0 by ring, Real.exp_zero]
    nlinarith
  have hok : ∀ t ∈ householdGrid 10 (1 / 52), ∃ v,
      utility_loss_t t lam 0.4 100000 0.15 2000 1.5 = Except.ok v :=
    fun t _ => utility_loss_isOk t lam 0.4 100000 0.15 2000 1.5 (by norm_num)
  have hhead : utility_loss_t ((householdGrid 10 (1 / 52)).getD 0 0)
      lam 0.4 100000 0.15 2000 1.5 = Except.ok none := by
    rw [grid_default_head]
    exact utility_loss_nan 0 lam 0.4 100000 0.15 2000 1.5 (by norm_num) hct
  have huti0 := total_trap_none (householdGrid 10 (1 / 52))
    (fun t => utility_loss_t t lam 0.4 100000 0.15 2000 1.5) 0
    grid_default_two_le hok hhead
  have hutir := total_trap_none (householdGrid 10 (1 / 52))
    (fun t => utility_loss_t t lam 0.4 100000 0.15 2000 1.5) 0.06
    grid_default_two_le hok hhead
  have hrec := total_trap_pure (householdGrid 10 (1 / 52))
    (fun t => reconstruction_cost_t t lam 0.4 100000) 0 grid_default_two_le
  have hinc := total_trap_pure (householdGrid 10 (1 / 52))
    (fun t => income_loss_t t lam 0.4 100000 0.15) 0 grid_default_two_le
  have hcon := total_trap_pure (householdGrid 10 (1 / 52))
    (fun t => consumption_loss_t t lam 0.4 100000 0.15) 0 grid_default_two_le
  refine ⟨trapzR 0 (fun t => reconstruction_cost_t t lam 0.4 100000) (householdGrid 10 (1 / 52)),
    trapzR 0 (fun t => income_loss_t t lam 0.4 100000 0.15) (householdGrid 10 (1 / 52)),
    trapzR 0 (fun t => consumption_loss_t t lam 0.4 100000 0.15) (householdGrid 10 (1 / 52)),
    ?_⟩
  simp only [Household.get_losses, Household.lossFun, hrec, hinc, hcon, huti0, hutir,
    wellbeing_loss, Option.map_none']

/-- C3 (amended): running the end-to-end scenario
`Household(v=0.4, k_str=100000, c0=2000, c_avg=1800, eta=1.5, pi=0.15,
rho=0.06, t_max=10).opt_lambda()` followed by `get_losses()` yields an
optimal rate strictly between 0 and 10 and a record with all four kind
entries and `asset_loss = 40000` exactly — but the equity-weighted loss is
strictly BELOW the asset loss (the equity weight is below 1 since
`c0 > c_avg`), and the wellbeing and utility losses are undefined (NaN)
rather than positive, because consumption at `t = 0` is negative for every
positive recovery rate (`(pi + lambda)*v*k_str > c0`), which the NaN guard
turns into an undefined utility that propagates through the totals. -/
theorem end_to_end_household :
    eIsOk C3run = true ∧
    0 < C3lam ∧ C3lam < 10 ∧
    C3H1.l = some C3lam ∧
    eIsOk C3losses = true ∧
    C3record.assetLoss = 40000 ∧
    C3record.equityWeighted < C3record.assetLoss ∧
    C3record.wellbeing = none ∧
    C3record.utility = none ∧
    C3record.reconstruction.isSome = true ∧
    C3record.income.isSome = true ∧
    C3record.consumption.isSome = true := by
  obtain ⟨lam, h0, h10, hrun⟩ := C3run_eval
  obtain ⟨r1, r2, r3, hloss⟩ := C3_losses_eval lam
    (some (Real.log (1 / (1 - (95 : ℝ) / 100)) / lam)) h0
  have hlam : C3lam = lam := by
    rw [C3lam, hrun]
    rfl
  have hH1 : C3H1 = ⟨0.4, 100000, 2000, 1800, 0.15, 1.5, 0.06, 10,
      householdDt 10 (1 / 52), householdGrid 10 (1 / 52), some lam,
      some (Real.log (1 / (1 - (95 : ℝ) / 100)) / lam)⟩ := by
    rw [C3H1, hrun]
    rfl
  have hlosses : C3losses = Except.ok ⟨some r1, some r2, some r3, none, none,
      (0.4 : ℝ) * 100000, equity_weight 2000 1800 1.5 * 0.4 * 100000⟩ := by
    rw [C3losses, hH1]
    exact hloss
  have hrecord : C3record = ⟨some r1, some r2, some r3, none, none,
      (0.4 : ℝ) * 100000, equity_weight 2000 1800 1.5 * 0.4 * 100000⟩ := by
    rw [C3record, hlosses]
    rfl
  refine ⟨by rw [hrun]; rfl, ?_, ?_, ?_, by rw [hlosses]; rfl, ?_, ?_, ?_, ?_, ?_, ?_, ?_⟩
  · rw [hlam]; exact h0
  · rw [hlam]; exact h10
  · rw [hH1, hlam]
  · rw [hrecord]
    norm_num
  · rw [hrecord]
    exact equity_weighted_lt_asset
  · rw [hrecord]
  · rw [hrecord]
  · rw [hrecord]; rfl
  · rw [hrecord]; rfl
  · rw [hrecord]; rfl
